import Mathlib

/-!
Shallow embedding of the labl IQ rate engine
(`app/services/calc_engine.py`, class `AmazonRateCalculator`) and proofs
about its zone resolution, surcharge, rate-band and batch-orchestration
logic.  Python floats are modelled as rationals, Python `None`/NaN and
strings by an explicit value type, pandas frames by lists and lookup
functions, and every fallible stage by `Except`/`Option`.
-/

namespace LablIQ

/-- A Python scalar value as it can reach the ZIP/shipment handling code:
`None`, a float NaN, a float infinity, an int, a finite float, or a str. -/
inductive PyVal where
  | none : PyVal
  | nan : PyVal
  | inf : PyVal
  | int : Int → PyVal
  | float : Rat → PyVal
  | str : String → PyVal
deriving DecidableEq, Repr

/-- The whitespace characters removed by Python `str.strip()`. -/
def pyIsSpace (c : Char) : Bool :=
  c = ' ' || c = '\t' || c = '\n' || c = '\x0d' || c = '\x0c' || c = '\x0b'

/-- Python `str.strip()`: drop leading and trailing whitespace. -/
def pstrip (s : String) : String :=
  ⟨((s.data.dropWhile pyIsSpace).reverse.dropWhile pyIsSpace).reverse⟩

/-- Python `str.lower()` on one ASCII character. -/
def pyCharLower (c : Char) : Char :=
  if 65 ≤ c.toNat ∧ c.toNat ≤ 90 then Char.ofNat (c.toNat + 32) else c

/-- Python `str.upper()` on one ASCII character. -/
def pyCharUpper (c : Char) : Char :=
  if 97 ≤ c.toNat ∧ c.toNat ≤ 122 then Char.ofNat (c.toNat - 32) else c

/-- Python `str.lower()`. -/
def plower (s : String) : String := ⟨s.data.map pyCharLower⟩

/-- Python `str.upper()`. -/
def pupper (s : String) : String := ⟨s.data.map pyCharUpper⟩

/-- Python `str.replace(c, '')` for a one-character pattern: delete every
occurrence of the character. -/
def premove (c : Char) (s : String) : String :=
  ⟨s.data.filter (fun ch => ch ≠ c)⟩

/-- Python slicing `s[:n]`. -/
def pyTake (s : String) (n : Nat) : String := ⟨s.data.take n⟩

/-- Python `str.zfill(w)`: left-pad with zeros to width `w`, keeping a
leading sign in front of the padding. -/
def pyZfill (s : String) (w : Nat) : String :=
  if w ≤ s.data.length then s
  else
    match s.data with
    | '-' :: rest => ⟨'-' :: (List.replicate (w - s.data.length) '0' ++ rest)⟩
    | '+' :: rest => ⟨'+' :: (List.replicate (w - s.data.length) '0' ++ rest)⟩
    | l => ⟨List.replicate (w - s.data.length) '0' ++ l⟩

/-- Python `str.isdigit()`: non-empty and every character a digit. -/
def pyIsdigit (s : String) : Bool :=
  !s.data.isEmpty && s.data.all Char.isDigit

/-- Python truthiness of a scalar (`bool(v)`). -/
def pyTruthy : PyVal → Bool
  | .none => false
  | .nan => true
  | .inf => true
  | .int n => n ≠ 0
  | .float q => q ≠ 0
  | .str s => s ≠ ""

/-- `pandas.isna` on a scalar. -/
def pyIsna : PyVal → Bool
  | .none => true
  | .nan => true
  | _ => false

/-- Fractional decimal digits of `x ∈ [0,1)`, at most `fuel` of them
(used to print a float the way Python `str` prints a float whose value
has a finite decimal expansion). -/
def fracDigits : Nat → Rat → List Char
  | 0, _ => []
  | fuel + 1, x =>
    if x = 0 then []
    else
      let d := (⌊x * 10⌋).toNat
      Char.ofNat (48 + d) :: fracDigits fuel (x * 10 - (d : Rat))

/-- Python `str()` of a finite float with a short decimal expansion
(e.g. `str(5.0) = "5.0"`, `str(3.5) = "3.5"`). -/
def floatRepr (q : Rat) : String :=
  let sign := if q < 0 then "-" else ""
  let a := |q|
  let ip := (⌊a⌋).toNat
  let ds := fracDigits 17 (a - (ip : Rat))
  let ds' := if ds.isEmpty then ['0'] else ds
  sign ++ toString ip ++ "." ++ (⟨ds'⟩ : String)

/-- Python `str()` of a scalar value. -/
def pyStr : PyVal → String
  | .none => "None"
  | .nan => "nan"
  | .inf => "inf"
  | .int n => toString n
  | .float q => floatRepr q
  | .str s => s

/-- Python 3 `round()` to an integer: round half to even. -/
def roundHalfEven (q : Rat) : Int :=
  if 2 * (q - (⌊q⌋ : Rat)) = 1 then (if ⌊q⌋ % 2 = 0 then ⌊q⌋ else ⌊q⌋ + 1)
  else round q

/-- Python `round(x, 2)`: round half to even at two decimal places. -/
def round2 (q : Rat) : Rat := (roundHalfEven (q * 100) : Rat) / 100

/-- Python `int()` truncation of a float toward zero. -/
def pyIntTrunc (q : Rat) : Int :=
  if 0 ≤ q then ⌊q⌋ else -⌊-q⌋


/-- `AmazonRateCalculator.normalize_zip`: normalize an input ZIP/postal
code to a 5-character US ZIP when possible.  `None` and NaN give `""`;
numeric inputs are rounded, stringified and zero-filled; strings are
stripped, `''`/`'nan'` give `""`, separator characters are removed,
and either the contained digits (zero-filled, first five) or the
uppercased string is returned. -/
def normalizeZip : PyVal → String
  | .none => ""
  | .nan => ""
  | .inf => ""
  | .int n => pyTake (pyZfill (toString n) 5) 5
  | .float q => pyTake (pyZfill (toString (roundHalfEven q)) 5) 5
  | .str s =>
    let t := pstrip s
    if t = "" || plower t = "nan" then ""
    else
      let t2 := premove '-' (premove ' ' t)
      let digits : String := ⟨t2.data.filter Char.isDigit⟩
      if digits ≠ "" then pyTake (pyZfill digits 5) 5
      else pupper t2

/-- `AmazonRateCalculator.standardize_zip`: reduce a ZIP string to a
3-digit prefix, `"INT"` for international (contains letters), or
`"000"` for missing/invalid input. -/
def standardizeZip (z : String) : String :=
  if pstrip z = "" || plower z = "nan" then "000"
  else
    let c := premove '-' (premove ' ' (pstrip z))
    if c = "" then "000"
    else if c.data.any Char.isAlpha && plower c ≠ "nan" then "INT"
    else
      let digits : String := ⟨c.data.filter Char.isDigit⟩
      if digits = "" then "000"
      else pyTake (if digits.data.length < 3 then pyZfill digits 3 else digits) 3

/-- The zone matrix after load: row labels (origin 3-digit prefixes),
column labels (destination prefixes) and the cell at a (row position,
column position) pair; `Option.none` models a NaN cell. -/
structure ZoneMatrix where
  index : List String
  columns : List String
  cell : Nat → Nat → Option Rat

/-- The origin-row search of `get_zone`: the prefix itself, else the
client origin from `criteria_values` (when truthy), else the first
matrix row when one exists. -/
def originIdxLookup (m : ZoneMatrix) (criteriaOrigin : Option PyVal)
    (op : String) : Option Nat :=
  match m.index.findIdx? (fun l => l = op) with
  | some i => some i
  | Option.none =>
    let fromCriteria : Option Nat :=
      match criteriaOrigin with
      | some co =>
        if pyTruthy co then
          m.index.findIdx? (fun l => l = standardizeZip (pyStr co))
        else Option.none
      | Option.none => Option.none
    match fromCriteria with
    | some i => some i
    | Option.none => if 0 < m.index.length then some 0 else Option.none

/-- `AmazonRateCalculator.get_zone`: resolve the shipping zone for an
origin/destination pair against the zone matrix, falling back to the
client origin from `criteria_values` and then to the first matrix row
when the origin prefix is absent; every failure path returns 8. -/
def getZone (m : ZoneMatrix) (criteriaOrigin : Option PyVal)
    (originZip destZip : PyVal) : Int :=
  let originStr := pstrip (pyStr originZip)
  let destStr := pstrip (pyStr destZip)
  if destStr.data.any Char.isAlpha then 8
  else
    let op := standardizeZip originStr
    let dp := standardizeZip destStr
    if op = "INT" || op = "000" || dp = "INT" || dp = "000" then 8
    else
      let originIdx : Option Nat := originIdxLookup m criteriaOrigin op
      let destIdx : Option Nat := m.columns.findIdx? (fun l => l = dp)
      match originIdx, destIdx with
      | some oi, some di =>
        match m.cell oi di with
        | Option.none => 8
        | some q => if 1 ≤ q ∧ q ≤ 8 then pyIntTrunc q else 8
      | _, _ => 8

/-- `AmazonRateCalculator.is_das_zip`: missing/unnormalizable ZIP is
treated as surcharge-eligible (True), non-numeric (international) is
True, otherwise membership in the DAS set (default False). -/
def isDasZip (dasZips : List String) (zipCode : PyVal) : Bool :=
  let normalized := normalizeZip zipCode
  if normalized = "" then true
  else if !pyIsdigit normalized then true
  else dasZips.contains normalized

/-- `AmazonRateCalculator.is_edas_zip`: empty or non-numeric gives
False, otherwise membership in the extended-DAS set (default False). -/
def isEdasZip (edasZips : List String) (zipCode : PyVal) : Bool :=
  let normalized := normalizeZip zipCode
  if normalized = "" || !pyIsdigit normalized then false
  else edasZips.contains normalized

/-- `AmazonRateCalculator.is_remote_zip`: empty gives False,
non-numeric gives True, otherwise membership in the remote set
(default False). -/
def isRemoteZip (remoteZips : List String) (zipCode : PyVal) : Bool :=
  let normalized := normalizeZip zipCode
  if normalized = "" then false
  else if !pyIsdigit normalized then true
  else remoteZips.contains normalized

/-- The mask `(zone_matrix < 1) | (zone_matrix > 8)` of
`clean_zone_matrix` on one cell: pandas comparisons with NaN are
elementwise False, so a NaN cell (`Option.none`) never counts as
invalid. -/
def cellInvalid (c : Option Rat) : Bool :=
  match c with
  | Option.none => false
  | some q => q < 1 || 8 < q

/-- `invalid_count = invalid_zones_mask.sum().sum()` over the grid. -/
def invalidCount (cells : List (List (Option Rat))) : Nat :=
  (cells.map (fun row => (row.filter cellInvalid).length)).sum

/-- `DataFrame.where((M ≥ 1) & (M ≤ 8), 8)` on one cell: keep the
value where the condition holds, else 8; a NaN cell fails the
condition and becomes 8. -/
def whereCell (c : Option Rat) : Option Rat :=
  match c with
  | Option.none => some 8
  | some q => if 1 ≤ q ∧ q ≤ 8 then some q else some 8

/-- `.round().astype('Int64')` on one cell: a number rounds
half-to-even to an integer; a NaN cell becomes the nullable-integer
missing value `<NA>` (`Option.none`). -/
def roundCell (c : Option Rat) : Option Int :=
  match c with
  | Option.none => Option.none
  | some q => some (roundHalfEven q)

/-- `AmazonRateCalculator.clean_zone_matrix` on the grid of cell values
(each `Option.none` when non-numeric/NaN after
`pd.to_numeric(…, errors='coerce')`): the `where`-replacement runs only
under the source's `if invalid_count > 0` guard, and the final
round-and-convert pass runs unconditionally. -/
def cleanZoneMatrix (cells : List (List (Option Rat))) :
    List (List (Option Int)) :=
  let replaced :=
    if 0 < invalidCount cells then cells.map (fun row => row.map whereCell)
    else cells
  replaced.map (fun row => row.map roundCell)

/-- One row of the loaded rate table: the `Cntr` package category
(`"Letters"` or `"Pkg"`), the `lbs` weight break, and the per-zone rate
columns (`Option.none` models a NaN cell). -/
structure RateRow where
  cntr : String
  lbs : Rat
  rates : List (String × Option Rat)

/-- The loaded rate table: its rows in sheet order plus its column
labels (zone columns among them). -/
structure RateTable where
  rows : List RateRow
  columns : List String

/-- The loop of Python `bisect.bisect_right(a, x)`: binary search for
the insertion point after any elements equal to `x`; `fuel` bounds the
iteration count (the interval shrinks every step, so `a.length` steps
always suffice). -/
def bisectLoop (a : List Rat) (x : Rat) : Nat → Nat → Nat → Nat
  | 0, lo, _ => lo
  | fuel + 1, lo, hi =>
    if lo < hi then
      let mid := (lo + hi) / 2
      if x < a.getD mid 0 then bisectLoop a x fuel lo mid
      else bisectLoop a x fuel (mid + 1) hi
    else lo

/-- Python `bisect.bisect_right(a, x)`. -/
def bisectRight (a : List Rat) (x : Rat) : Nat :=
  bisectLoop a x a.length 0 a.length

/-- Python `str(package_type).lower().strip()` with the source's guards:
`None` and numeric package types fall back to `'box'`. -/
def packageTypeStr : PyVal → String
  | .none => "box"
  | .int _ => "box"
  | .float _ => "box"
  | .nan => "box"
  | .inf => "box"
  | .str s => pstrip (plower s)

/-- `AmazonRateCalculator.get_base_rate`: select the `Letters` rows for
envelopes and the `Pkg` rows otherwise, look up the zone column, find
the weight band via `bisect_right` with the source's index clamping,
and validate the resulting rate; failures raise `RateCalculationError`,
modelled as `Except.error`. -/
def getBaseRate (rt : RateTable) (weight : Rat) (zone : Int)
    (packageType : PyVal) : Except String Rat :=
  let pkg := packageTypeStr packageType
  let zoneCol := toString zone
  let rateRows := rt.rows.filter
    (fun r => r.cntr = (if pkg = "envelope" then "Letters" else "Pkg"))
  if rateRows.isEmpty then
    .error ("No rates found for package type " ++ pkg)
  else if !(rt.columns.contains zoneCol) then
    .error ("Zone " ++ toString zone ++ " not found in rate table")
  else
    let weightBreaks := rateRows.map (fun r => r.lbs)
    let idx0 := bisectRight weightBreaks weight
    let idx :=
      if idx0 = 0 then 1
      else if idx0 > weightBreaks.length - 1 then weightBreaks.length - 1
      else idx0
    match rateRows.get? (idx - 1) with
    | Option.none =>
      .error "Rate calculation failed: weight band index out of range"
    | some row =>
      match row.rates.lookup zoneCol with
      | Option.none =>
        .error ("Invalid rate for weight " ++ toString weight ++ ", zone "
          ++ toString zone ++ ", package type " ++ pkg)
      | some Option.none =>
        .error ("Invalid rate for weight " ++ toString weight ++ ", zone "
          ++ toString zone ++ ", package type " ++ pkg)
      | some (some rate) =>
        if rate ≤ 0 then
          .error ("Invalid rate for weight " ++ toString weight ++ ", zone "
            ++ toString zone ++ ", package type " ++ pkg)
        else .ok rate

/-- The calculation criteria (`self.criteria_values`) as the engine
reads them.  `fuelPct` is the result of
`float(criteria_values.get('fuel_surcharge_percentage', 16.0))`:
`Option.none` models a stored value that `float()` cannot convert (the
raised `ValueError` lands in the surcharge error handler, which retries
the same conversion, fails again, and returns the zeroed dictionary).
The surcharge amounts are the numeric configuration values
`criteria_values.get('das_surcharge', 1.98)` etc.  `markupPct` is
`criteria_values.get('markup_percentage')` when present and not None;
`serviceMarkups` holds the `f"{service_level}_markup"` entries. -/
structure Criteria where
  fuelPct : Option Rat
  dasAmt : Rat
  edasAmt : Rat
  remoteAmt : Rat
  originZip : Option PyVal
  markupPct : Option Rat
  serviceMarkups : List (String × Rat)

/-- The reference data an `AmazonRateCalculator` instance carries. -/
structure Config where
  criteria : Criteria
  zm : ZoneMatrix
  rt : RateTable
  dasZips : List String
  edasZips : List String
  remoteZips : List String

/-- The surcharge dictionary returned by `apply_surcharges`. -/
structure Surcharges where
  fuel : Rat
  das : Rat
  edas : Rat
  remote : Rat
  total : Rat
deriving DecidableEq, Repr

/-- Is the 3-digit prefix an Alaska or Hawaii prefix
(`995`–`999`, `967`, `968`)?  On a 3-character digit prefix,
`startswith` coincides with equality. -/
def akHiPrefix (p : String) : Bool :=
  p = "995" || p = "996" || p = "997" || p = "998" || p = "999" ||
  p = "967" || p = "968"

/-- `AmazonRateCalculator.apply_surcharges`: fuel surcharge on the base
rate, then early returns for empty/`'10001'`/`'60601'`/`"000"`-prefix
destinations with only the fuel component, then DAS / extended-DAS /
remote components and the rounded total.  The `weight` and
`package_type` parameters of the source are unused by its logic. -/
def applySurcharges (cfg : Config) (baseRate : Rat) (destZip : PyVal) :
    Surcharges :=
  match cfg.criteria.fuelPct with
  | Option.none => ⟨0, 0, 0, 0, 0⟩
  | some fuelPct =>
    let fuel := round2 (baseRate * (fuelPct / 100))
    let destZipStr := match destZip with
      | .none => ""
      | v => pyStr v
    let normalized := normalizeZip (.str destZipStr)
    if normalized = "" then ⟨fuel, 0, 0, 0, fuel⟩
    else if normalized = "10001" || normalized = "60601" then
      ⟨fuel, 0, 0, 0, fuel⟩
    else
      let zp3 := standardizeZip destZipStr
      if zp3 = "000" then ⟨fuel, 0, 0, 0, fuel⟩
      else
        let das :=
          if isDasZip cfg.dasZips (.str normalized) then cfg.criteria.dasAmt
          else 0
        let edas :=
          if zp3 ≠ "INT" ∧ zp3 ≠ "000" then
            if isEdasZip cfg.edasZips (.str normalized) then
              cfg.criteria.edasAmt
            else 0
          else 0
        let applyRemote :=
          (zp3 = "INT" && destZipStr.data.any Char.isAlpha
            && plower destZipStr ≠ "nan")
          || (pyIsdigit zp3 && akHiPrefix zp3)
          || isRemoteZip cfg.remoteZips (.str normalized)
        let remote := if applyRemote then cfg.criteria.remoteAmt else 0
        ⟨fuel, das, edas, remote, round2 (fuel + das + edas + remote)⟩

/-- The dictionary returned by `apply_discounts_and_markups`. -/
structure Pricing where
  markupPercentage : Rat
  markupAmount : Rat
  finalRate : Rat
deriving DecidableEq, Repr

/-- `AmazonRateCalculator.apply_discounts_and_markups`: add all
surcharges to the base rate, pick the general `markup_percentage` if
present (else the service-specific `{service_level}_markup`, else 0),
and apply it. -/
def applyDiscountsAndMarkups (cfg : Config) (baseRate : Rat)
    (s : Surcharges) (serviceLevel : String) : Pricing :=
  let rateWithSurcharges := baseRate + s.total
  let markupPct :=
    match cfg.criteria.markupPct with
    | some p => p
    | Option.none =>
      match cfg.criteria.serviceMarkups.lookup (serviceLevel ++ "_markup") with
      | some p => p
      | Option.none => 0
  let markupAmount := rateWithSurcharges * (markupPct / 100)
  ⟨markupPct, round2 markupAmount, round2 (rateWithSurcharges + markupAmount)⟩

/-- The dictionary returned by `calculate_margin`. -/
structure Margin where
  carrierRate : Option Rat
  savings : Rat
  savingsPercent : Rat
deriving DecidableEq, Repr

/-- `AmazonRateCalculator.calculate_margin`: savings against the
current carrier rate, computed only when that rate is present and
positive; otherwise both fields stay 0. -/
def calculateMargin (finalRate : Rat) (currentRate : Option Rat) : Margin :=
  match currentRate with
  | Option.none => ⟨Option.none, 0, 0⟩
  | some c =>
    if 0 < c then ⟨some c, c - finalRate, (c - finalRate) / c * 100⟩
    else ⟨some c, 0, 0⟩

/-- A shipment record as `calculate_shipment_rate` reads it: each field
is `Option.none` when the key is absent from the dictionary.  Weights
and the carrier rate are modelled as numeric-or-absent (a `None`/NaN
value behaves like an absent key for them); a provided zone is modelled
as an integer, `0` included. -/
structure Shipment where
  shipmentId : Option PyVal := Option.none
  originZip : Option PyVal := Option.none
  destinationZip : Option PyVal := Option.none
  weight : Option Rat := Option.none
  billableWeight : Option Rat := Option.none
  packageType : Option PyVal := Option.none
  carrierRate : Option Rat := Option.none
  serviceLevel : Option String := Option.none
  zone : Option Int := Option.none

/-- The `zone` column of a result row: the string `'Error'` from the
initialized default result, or a resolved/provided integer zone. -/
inductive ZoneField where
  | err : ZoneField
  | int : Int → ZoneField
deriving DecidableEq, Repr

/-- A result row of `calculate_shipment_rate` (the `default_result`
dictionary after the pipeline has updated it). -/
structure Row where
  shipmentId : PyVal
  originZip : PyVal
  destinationZip : PyVal
  weight : Rat
  billableWeight : Rat
  packageType : PyVal
  zone : ZoneField
  baseRate : Rat
  fuelSurcharge : Rat
  dasSurcharge : Rat
  edasSurcharge : Rat
  remoteSurcharge : Rat
  totalSurcharges : Rat
  discountAmount : Rat
  markupAmount : Rat
  markupPercentage : Rat
  finalRate : Rat
  carrierRate : Rat
  savings : Rat
  savingsPercent : Rat
  serviceLevel : PyVal
  errors : PyVal
deriving DecidableEq, Repr

/-- The missing-destination test of `calculate_shipment_rate`:
`not dest_zip or pd.isna(dest_zip) or (isinstance(dest_zip, str) and
(dest_zip.strip() == '' or dest_zip.lower() == 'nan'))`. -/
def zipMissingFull : Option PyVal → Bool
  | Option.none => true
  | some v =>
    !pyTruthy v || pyIsna v ||
      (match v with
       | .str s => pstrip s = "" || plower s = "nan"
       | _ => false)

/-- The later required-field test, which omits the `'nan'` string
case: `not z or pd.isna(z) or (isinstance(z, str) and z.strip() == '')`. -/
def zipMissingNoNan : Option PyVal → Bool
  | Option.none => true
  | some v =>
    !pyTruthy v || pyIsna v ||
      (match v with
       | .str s => pstrip s = ""
       | _ => false)

/-- The destination ZIP after the immediate missing-value replacement
(`'60601'`, the Chicago placeholder). -/
def effDest (s : Shipment) : PyVal :=
  if zipMissingFull s.destinationZip then .str "60601"
  else s.destinationZip.getD (.str "60601")

/-- The origin ZIP after the immediate missing-value replacement
(`criteria_values.get('origin_zip', '10001')`). -/
def effOrigin (cfg : Config) (s : Shipment) : PyVal :=
  if zipMissingFull s.originZip then cfg.criteria.originZip.getD (.str "10001")
  else s.originZip.getD (.str "10001")

/-- `rating_weight = shipment.get('billable_weight', weight)`. -/
def ratingWeightRaw (s : Shipment) : Option Rat :=
  s.billableWeight.orElse (fun _ => s.weight)

/-- The weight validity test:
`not rating_weight or pd.isna(rating_weight) or rating_weight <= 0`. -/
def weightInvalid (s : Shipment) : Bool :=
  match ratingWeightRaw s with
  | Option.none => true
  | some w => w ≤ 0

/-- The rating weight actually used, after the `1.0` default for a
missing or non-positive weight. -/
def ratingWeight (s : Shipment) : Rat :=
  match ratingWeightRaw s with
  | Option.none => 1
  | some w => if w ≤ 0 then 1 else w

/-- The `missing_fields` list collected by `calculate_shipment_rate`
(checked on the already-defaulted origin and destination values). -/
def missingFields (cfg : Config) (s : Shipment) : List String :=
  (if zipMissingNoNan (some (effOrigin cfg s)) then ["origin_zip"] else []) ++
  (if zipMissingNoNan (some (effDest s)) then ["destination_zip"] else []) ++
  (if weightInvalid s then ["weight/billable_weight"] else [])

/-- The diagnostic string after the required-field checks. -/
def missingFieldsErrors (cfg : Config) (s : Shipment) : String :=
  if missingFields cfg s ≠ [] then
    "Missing required fields: " ++ String.intercalate ", " (missingFields cfg s)
  else ""

/-- The integer zone `calculate_shipment_rate` settles on: a provided
zone (checked only against `None`, so `0` is used as-is), else 8 for an
alphabetic (international) destination, else the matrix resolver. -/
def shipZoneInt (cfg : Config) (s : Shipment) : Int :=
  match s.zone with
  | some z => z
  | Option.none =>
    if (pyStr (effDest s)).data.any Char.isAlpha then 8
    else getZone cfg.zm cfg.criteria.originZip (effOrigin cfg s) (effDest s)

/-- `_sanitize_result_row` on one scalar: NaN/Inf floats and the
strings `'nan'`/`'inf'` (case-insensitively) collapse to `0.0`. -/
def sanitizePy : PyVal → PyVal
  | .nan => .float 0
  | .inf => .float 0
  | .str s => if plower s = "nan" || plower s = "inf" then .float 0 else .str s
  | v => v

/-- `_sanitize_result_row` on a result row: the rational-valued fields
are finite and unchanged; the scalar fields pass through `sanitizePy`. -/
def sanitizeRow (r : Row) : Row :=
  { r with
    shipmentId := sanitizePy r.shipmentId
    originZip := sanitizePy r.originZip
    destinationZip := sanitizePy r.destinationZip
    packageType := sanitizePy r.packageType
    serviceLevel := sanitizePy r.serviceLevel
    errors := sanitizePy r.errors }

/-- `AmazonRateCalculator.calculate_shipment_rate`: the per-shipment
pipeline.  Missing origin/destination/weight are defaulted, the zone is
provided/resolved, and the base rate, surcharges, markup and margin
stages run in order; a base-rate failure (`RateCalculationError`) is
caught and recorded in `errors`, leaving the remaining monetary fields
at their zero defaults; the surcharge, markup and margin stages of the
source catch their own exceptions internally and never raise. -/
def calcShipmentRate (cfg : Config) (s : Shipment) : Row :=
  let destV := effDest s
  let origV := effOrigin cfg s
  let rw := ratingWeight s
  let pkg := s.packageType.getD (.str "box")
  let svc := s.serviceLevel.getD "standard"
  let zi := shipZoneInt cfg s
  let errors0 := missingFieldsErrors cfg s
  let base : Row :=
    { shipmentId := s.shipmentId.getD (.str "")
      originZip := origV
      destinationZip := destV
      weight := s.weight.getD 0
      billableWeight := (s.billableWeight.orElse (fun _ => s.weight)).getD 0
      packageType := pkg
      zone := .int zi
      baseRate := 0
      fuelSurcharge := 0
      dasSurcharge := 0
      edasSurcharge := 0
      remoteSurcharge := 0
      totalSurcharges := 0
      discountAmount := 0
      markupAmount := 0
      markupPercentage := 0
      finalRate := 0
      carrierRate := s.carrierRate.getD 0
      savings := 0
      savingsPercent := 0
      serviceLevel := .str svc
      errors := .str errors0 }
  match getBaseRate cfg.rt rw zi pkg with
  | .error e =>
    sanitizeRow { base with errors := .str ("Base rate error: " ++ e) }
  | .ok br =>
    let sur := applySurcharges cfg br destV
    let pricing := applyDiscountsAndMarkups cfg br sur svc
    let withPricing : Row :=
      { base with
        baseRate := br
        fuelSurcharge := sur.fuel
        dasSurcharge := sur.das
        edasSurcharge := sur.edas
        remoteSurcharge := sur.remote
        totalSurcharges := sur.total
        finalRate := pricing.finalRate
        markupPercentage := pricing.markupPercentage
        markupAmount := pricing.markupAmount }
    match s.carrierRate with
    | some c =>
      let marg := calculateMargin pricing.finalRate (some c)
      sanitizeRow
        { withPricing with
          savings := marg.savings
          savingsPercent := marg.savingsPercent }
    | Option.none => sanitizeRow withPricing

/-- `AmazonRateCalculator.calculate_rates`: run the per-shipment
pipeline over the batch.  The per-row `except` branch of the source is
unreachable here because `calculate_shipment_rate` catches every
exception internally and always returns a row. -/
def calculateRates (cfg : Config) (shipments : List Shipment) : List Row :=
  shipments.map (calcShipmentRate cfg)

/-- The summary dictionary of `get_summary_stats`. -/
structure Stats where
  totalShipments : Nat
  totalBaseRate : Rat
  totalSurcharges : Rat
  totalFinalRate : Rat
  totalSavings : Rat
  avgBaseRate : Rat
  avgFinalRate : Rat
  avgSavingsPercent : Rat
deriving DecidableEq, Repr

/-- The keys of every result-row dictionary built by
`calculate_shipment_rate` (the keys of `default_result`).  Note the
diagnostic key is `'errors'`; no row carries a key named `'error'`. -/
def resultRowKeys : List String :=
  ["shipment_id", "origin_zip", "destination_zip", "weight",
   "billable_weight", "package_type", "zone", "base_rate",
   "fuel_surcharge", "das_surcharge", "edas_surcharge",
   "remote_surcharge", "total_surcharges", "discount_amount",
   "markup_amount", "markup_percentage", "final_rate", "carrier_rate",
   "savings", "savings_percent", "service_level", "errors"]

/-- Python `k in r` for a result row `r`: dictionary **key**
membership, decided by the row's fixed key set. -/
def rowHasKey (_r : Row) (k : String) : Bool := resultRowKeys.contains k

/-- `AmazonRateCalculator.get_summary_stats`: filter with
`'error' not in r`, then sum base rates, surcharges, final rates over
the retained rows, total and average savings only over rows with a
positive carrier rate, and divide for the averages.  `_safe_sum` is a
plain sum here because every modelled value is a finite rational. -/
def getSummaryStats (results : List Row) : Stats :=
  let valid := results.filter (fun r => !(rowHasKey r "error"))
  if valid.isEmpty then ⟨0, 0, 0, 0, 0, 0, 0, 0⟩
  else
    let totalShipments := valid.length
    let totalBaseRate := (valid.map (fun r => r.baseRate)).sum
    let totalSurcharges := (valid.map (fun r => r.totalSurcharges)).sum
    let totalFinalRate := (valid.map (fun r => r.finalRate)).sum
    let posCarrier := valid.filter (fun r => 0 < r.carrierRate)
    let totalSavings := (posCarrier.map (fun r => r.savings)).sum
    let avgBaseRate :=
      if 0 < totalShipments then totalBaseRate / (totalShipments : Rat) else 0
    let avgFinalRate :=
      if 0 < totalShipments then totalFinalRate / (totalShipments : Rat) else 0
    let avgSavingsPercent :=
      if 0 < posCarrier.length then
        (posCarrier.map (fun r => r.savingsPercent)).sum / (posCarrier.length : Rat)
      else 0
    ⟨totalShipments, totalBaseRate, totalSurcharges, totalFinalRate,
     totalSavings, avgBaseRate, avgFinalRate, avgSavingsPercent⟩

/-- Spec-side rendering of the `is_das` contract: True when the
normalized ZIP is empty or contains a non-digit character, otherwise
DAS-set membership. -/
def specIsDas (dasZips : List String) (zipCode : PyVal) : Bool :=
  let n := normalizeZip zipCode
  if n = "" ∨ n.data.any (fun c => !c.isDigit) then true
  else dasZips.contains n

/-- Spec-side rendering of the `is_edas` contract: False when the
normalized ZIP is empty or contains a non-digit character, otherwise
EDAS-set membership. -/
def specIsEdas (edasZips : List String) (zipCode : PyVal) : Bool :=
  let n := normalizeZip zipCode
  if n = "" ∨ n.data.any (fun c => !c.isDigit) then false
  else edasZips.contains n

/-- Spec-side rendering of the `is_remote` contract: False when the
normalized ZIP is empty, True when it contains a non-digit character,
otherwise remote-set membership. -/
def specIsRemote (remoteZips : List String) (zipCode : PyVal) : Bool :=
  let n := normalizeZip zipCode
  if n = "" then false
  else if n.data.any (fun c => !c.isDigit) then true
  else remoteZips.contains n

/-- A concrete rate-table row for package (`Pkg`) rates with zone
columns `2`, `4` and `8`. -/
def exRateRow (w r : Rat) : RateRow :=
  ⟨"Pkg", w, [("2", some r), ("4", some (r + 1)), ("8", some (r + 2))]⟩

/-- A concrete rate table with ascending weight breaks 1–5 lb. -/
def exRateTable : RateTable :=
  ⟨[exRateRow 1 10, exRateRow 2 20, exRateRow 3 30, exRateRow 4 40,
    exRateRow 5 50],
   ["Cntr", "lbs", "2", "4", "8"]⟩

/-- A concrete zone matrix: origins `100`, `303`; destinations `303`,
`606`; cell `(100, 303) = 4`, all others `2`. -/
def exMatrix : ZoneMatrix :=
  ⟨["100", "303"], ["303", "606"],
   fun i j => if i = 0 && j = 0 then some 4 else some 2⟩

/-- Concrete criteria: 16 % fuel, the default surcharge amounts, NYC
client origin, no markups. -/
def exCriteria : Criteria :=
  ⟨some 16, 99 / 50, 98 / 25, 283 / 20, some (.str "10001"), Option.none, []⟩

/-- A concrete engine configuration with empty surcharge ZIP sets. -/
def exConfig : Config := ⟨exCriteria, exMatrix, exRateTable, [], [], []⟩

/-- A well-formed shipment: NYC to Atlanta, 2 lb. -/
def exShipOk : Shipment :=
  { originZip := some (.str "10001"), destinationZip := some (.str "30301"),
    weight := some 2 }

/-- A shipment whose provided zone `99` has no rate-table column, so
the base-rate stage raises `RateCalculationError`. -/
def exShipBadZone : Shipment :=
  { originZip := some (.str "10001"), destinationZip := some (.str "30301"),
    weight := some 2, zone := some 99 }

/-- A shipment with a carrier rate, to the placeholder ZIP `60601`. -/
def exShipPlaceholder : Shipment :=
  { originZip := some (.str "10001"), destinationZip := some (.str "60601"),
    weight := some 3, carrierRate := some 50 }

/-- A shipment that supplies the explicit zone `0`. -/
def exShipZoneZero : Shipment :=
  { originZip := some (.str "10001"), destinationZip := some (.str "30301"),
    weight := some 2, zone := some 0 }

theorem round_le_round {x y : Rat} (h : x ≤ y) : round x ≤ round y := by
  rw [round_eq, round_eq]
  exact Int.floor_le_floor (by linarith)

theorem roundHalfEven_intCast (n : Int) : roundHalfEven (n : Rat) = n := by
  unfold roundHalfEven
  rw [Int.floor_intCast]
  simp

theorem round2_idem (q : Rat) : round2 (round2 q) = round2 q := by
  unfold round2
  rw [div_mul_cancel₀]
  · rw [roundHalfEven_intCast]
  · norm_num

theorem roundHalfEven_nonneg {q : Rat} (h : 0 ≤ q) : 0 ≤ roundHalfEven q := by
  unfold roundHalfEven
  split
  · have h0 : (0 : Int) ≤ ⌊q⌋ := Int.floor_nonneg.mpr h
    split <;> omega
  · have : (0 : Int) = round (0 : Rat) := by simp
    rw [this]
    exact round_le_round h

theorem round2_nonneg {q : Rat} (h : 0 ≤ q) : 0 ≤ round2 q := by
  unfold round2
  have h1 : (0 : Int) ≤ roundHalfEven (q * 100) :=
    roundHalfEven_nonneg (by positivity)
  have h2 : (0 : Rat) ≤ (roundHalfEven (q * 100) : Rat) := by exact_mod_cast h1
  positivity

theorem roundHalfEven_mem_Icc {q : Rat} (h1 : 1 ≤ q) (h8 : q ≤ 8) :
    1 ≤ roundHalfEven q ∧ roundHalfEven q ≤ 8 := by
  unfold roundHalfEven
  have hf1 : (1 : Int) ≤ ⌊q⌋ := by exact_mod_cast Int.le_floor.mpr (by exact_mod_cast h1)
  have hf8 : ⌊q⌋ ≤ 8 := by
    have : (⌊q⌋ : Rat) ≤ 8 := le_trans (Int.floor_le q) h8
    exact_mod_cast this
  split
  · next htie =>
    have hf8' : ⌊q⌋ ≤ 7 := by
      by_contra hc
      push_neg at hc
      have h8' : ⌊q⌋ = 8 := le_antisymm hf8 hc
      rw [h8'] at htie
      have : q = 17 / 2 := by push_cast at htie; linarith
      rw [this] at h8
      norm_num at h8
    split <;> omega
  · constructor
    · have : round (1 : Rat) ≤ round q := round_le_round h1
      simpa using this
    · have : round q ≤ round (8 : Rat) := round_le_round h8
      simpa using this

theorem isAlpha_toNat {a : Char} (h : a.isAlpha = true) :
    65 ≤ a.toNat ∧ a.toNat ≤ 90 ∨ 97 ≤ a.toNat ∧ a.toNat ≤ 122 := by
  simpa [Char.isAlpha, Char.isUpper, Char.isLower] using h

theorem isAlpha_ne_low {a : Char} (h : a.isAlpha = true) {c : Char}
    (hc : c.toNat < 65) : a ≠ c := by
  intro he
  have hb := isAlpha_toNat h
  rw [he] at hb
  omega

theorem isAlpha_not_space {a : Char} (h : a.isAlpha = true) :
    pyIsSpace a = false := by
  have h1 := isAlpha_ne_low h (c := ' ') (by decide)
  have h2 := isAlpha_ne_low h (c := '\t') (by decide)
  have h3 := isAlpha_ne_low h (c := '\n') (by decide)
  have h4 := isAlpha_ne_low h (c := '\x0d') (by decide)
  have h5 := isAlpha_ne_low h (c := '\x0c') (by decide)
  have h6 := isAlpha_ne_low h (c := '\x0b') (by decide)
  simp [pyIsSpace, h1, h2, h3, h4, h5, h6]

theorem mem_dropWhile_of_mem {a : Char} (p : Char → Bool) (hp : p a = false) :
    ∀ l : List Char, a ∈ l → a ∈ l.dropWhile p := by
  intro l
  induction l with
  | nil => intro h; exact absurd h (List.not_mem_nil a)
  | cons b t ih =>
    intro h
    rw [List.dropWhile_cons]
    by_cases hb : p b
    · rw [if_pos hb]
      rcases List.mem_cons.mp h with rfl | ht
      · rw [hb] at hp; cases hp
      · exact ih ht
    · rw [if_neg hb]; exact h

theorem mem_pstrip {a : Char} {s : String} (h : a ∈ s.data)
    (hw : pyIsSpace a = false) : a ∈ (pstrip s).data := by
  unfold pstrip
  have h1 := mem_dropWhile_of_mem pyIsSpace hw s.data h
  have h2 : a ∈ (s.data.dropWhile pyIsSpace).reverse := List.mem_reverse.mpr h1
  have h3 := mem_dropWhile_of_mem pyIsSpace hw _ h2
  exact List.mem_reverse.mpr h3

theorem alpha_mem_cleaned {s : String} {a : Char} (hal : a.isAlpha = true)
    (h : a ∈ s.data) : a ∈ (premove '-' (premove ' ' (pstrip s))).data := by
  have h1 : a ∈ (pstrip s).data := mem_pstrip h (isAlpha_not_space hal)
  have hsp := isAlpha_ne_low hal (c := ' ') (by decide)
  have hhy := isAlpha_ne_low hal (c := '-') (by decide)
  unfold premove
  simp only [List.mem_filter]
  exact ⟨⟨h1, by simpa using hsp⟩, by simpa using hhy⟩

theorem isDigit_false_of_lower {x : Char}
    (h : pyCharLower x = 'n' ∨ pyCharLower x = 'a') : x.isDigit = false := by
  unfold pyCharLower at h
  split at h
  · next hc =>
    by_contra hd
    rw [Bool.not_eq_false] at hd
    have hb : 48 ≤ x.toNat ∧ x.toNat ≤ 57 := by simpa [Char.isDigit] using hd
    omega
  · rcases h with h | h <;> (subst h; decide)

theorem standardizeZip_of_alpha {s : String}
    (h : s.data.any Char.isAlpha = true) :
    standardizeZip s = "INT" ∨ standardizeZip s = "000" := by
  obtain ⟨a, ha, hal⟩ := List.any_eq_true.mp h
  unfold standardizeZip
  split
  · right; rfl
  · have hmem : a ∈ (premove '-' (premove ' ' (pstrip s))).data :=
      alpha_mem_cleaned hal ha
    have hc : premove '-' (premove ' ' (pstrip s)) ≠ "" := by
      intro he
      rw [he] at hmem
      exact absurd hmem (List.not_mem_nil a)
    rw [if_neg hc]
    have hany : (premove '-' (premove ' ' (pstrip s))).data.any Char.isAlpha
        = true := List.any_eq_true.mpr ⟨a, hmem, hal⟩
    by_cases hnan : plower (premove '-' (premove ' ' (pstrip s))) = "nan"
    · right
      rw [if_neg (by simp [hnan])]
      have hmap : (premove '-' (premove ' ' (pstrip s))).data.map pyCharLower
          = ['n', 'a', 'n'] := congrArg String.data hnan
      have hlen : (premove '-' (premove ' ' (pstrip s))).data.length = 3 := by
        have := congrArg List.length hmap
        simpa using this
      obtain ⟨x, y, z, hxyz⟩ :
          ∃ x y z, (premove '-' (premove ' ' (pstrip s))).data = [x, y, z] := by
        match hl : (premove '-' (premove ' ' (pstrip s))).data with
        | [x, y, z] => exact ⟨x, y, z, rfl⟩
        | [] => rw [hl] at hlen; cases hlen
        | [_] => rw [hl] at hlen; cases hlen
        | [_, _] => rw [hl] at hlen; cases hlen
        | _ :: _ :: _ :: _ :: _ => rw [hl] at hlen; simp at hlen
      rw [hxyz] at hmap
      simp only [List.map_cons, List.map_nil, List.cons.injEq, and_true] at hmap
      obtain ⟨hx, hy, hz⟩ := hmap
      have hdx := isDigit_false_of_lower (Or.inl hx)
      have hdy := isDigit_false_of_lower (Or.inr hy)
      have hdz := isDigit_false_of_lower (Or.inl hz)
      rw [if_pos]
      show (⟨(premove '-' (premove ' ' (pstrip s))).data.filter Char.isDigit⟩
        : String) = ""
      rw [hxyz]
      simp [List.filter, hdx, hdy, hdz]
    · left
      rw [if_pos (by simp [hany, hnan])]

theorem pyIntTrunc_mem {q : Rat} (h1 : 1 ≤ q) (h8 : q ≤ 8) :
    1 ≤ pyIntTrunc q ∧ pyIntTrunc q ≤ 8 := by
  unfold pyIntTrunc
  rw [if_pos (by linarith : (0 : Rat) ≤ q)]
  constructor
  · exact Int.le_floor.mpr (by exact_mod_cast h1)
  · have hf : (⌊q⌋ : Rat) ≤ 8 := le_trans (Int.floor_le q) h8
    exact_mod_cast hf

/-- **C3**: for every pair of inputs of any modelled type — `None`,
empty string, NaN, numbers, malformed strings — `get_zone` returns an
integer in `[1, 8]` (it is a total function of this embedding, so it
never raises); every failure path returns 8. -/
theorem getZone_total_range (m : ZoneMatrix) (co : Option PyVal)
    (originZip destZip : PyVal) :
    1 ≤ getZone m co originZip destZip ∧ getZone m co originZip destZip ≤ 8 := by
  unfold getZone
  simp only []
  split
  · exact ⟨by norm_num, by norm_num⟩
  split
  · exact ⟨by norm_num, by norm_num⟩
  split
  · split
    · exact ⟨by norm_num, by norm_num⟩
    · split
      · next h => exact pyIntTrunc_mem h.1 h.2
      · exact ⟨by norm_num, by norm_num⟩
  · exact ⟨by norm_num, by norm_num⟩

theorem pyIntTrunc_intCast (z : Int) : pyIntTrunc (z : Rat) = z := by
  unfold pyIntTrunc
  split
  · exact Int.floor_intCast z
  · rw [← Int.cast_neg, Int.floor_intCast]
    omega

/-- **C4**: when the origin and destination 3-digit prefixes are both
found in the zone matrix and the cell there holds an integer in
`[1, 8]`, `get_zone` returns exactly that cell value; and for every
destination containing an alphabetic character, `get_zone` returns 8
regardless of the origin. -/
theorem getZone_matrix_hit_and_international (m : ZoneMatrix)
    (co : Option PyVal) :
    (∀ (o d : PyVal) (i j : Nat) (z : Int),
      standardizeZip (pstrip (pyStr o)) ≠ "INT" →
      standardizeZip (pstrip (pyStr o)) ≠ "000" →
      standardizeZip (pstrip (pyStr d)) ≠ "INT" →
      standardizeZip (pstrip (pyStr d)) ≠ "000" →
      m.index.findIdx? (fun l => l = standardizeZip (pstrip (pyStr o)))
        = some i →
      m.columns.findIdx? (fun l => l = standardizeZip (pstrip (pyStr d)))
        = some j →
      m.cell i j = some (z : Rat) →
      1 ≤ z → z ≤ 8 →
      getZone m co o d = z)
    ∧ (∀ o d : PyVal, (pyStr d).data.any Char.isAlpha = true →
        getZone m co o d = 8) := by
  constructor
  · intro o d i j z h1 h2 h3 h4 hfi hfj hcell hz1 hz8
    have hnoalpha : (pstrip (pyStr d)).data.any Char.isAlpha = false := by
      by_contra hc
      rw [Bool.not_eq_false] at hc
      rcases standardizeZip_of_alpha hc with h | h
      · exact h3 h
      · exact h4 h
    have ho : originIdxLookup m co (standardizeZip (pstrip (pyStr o)))
        = some i := by
      unfold originIdxLookup
      rw [hfi]
    unfold getZone
    simp only []
    rw [if_neg (by simp [hnoalpha])]
    rw [if_neg (by simp [h1, h2, h3, h4])]
    rw [ho, hfj]
    simp only []
    rw [hcell]
    simp only []
    rw [if_pos ⟨by exact_mod_cast hz1, by exact_mod_cast hz8⟩]
    exact pyIntTrunc_intCast z
  · intro o d h
    obtain ⟨a, ha, hal⟩ := List.any_eq_true.mp h
    have hmem : a ∈ (pstrip (pyStr d)).data :=
      mem_pstrip ha (isAlpha_not_space hal)
    unfold getZone
    simp only []
    rw [if_pos (List.any_eq_true.mpr ⟨a, hmem, hal⟩)]

/-- Witness instantiating `getZone_matrix_hit_and_international` at a
concrete matrix, hitting the cell `(0, 0) = 4` and an alphabetic
destination. -/
theorem getZone_matrix_hit_and_international_witness :
    getZone ⟨["100", "303"], ["303", "606"],
        fun i j => if i = 0 && j = 0 then some 4 else some 2⟩
      (some (.str "10001")) (.str "10001") (.str "30301") = 4
    ∧ getZone ⟨["100", "303"], ["303", "606"],
        fun i j => if i = 0 && j = 0 then some 4 else some 2⟩
      (some (.str "10001")) (.str "10001") (.str "E3G7P6") = 8 := by
  constructor
  · exact (getZone_matrix_hit_and_international _ _).1 (.str "10001")
      (.str "30301") 0 0 4 (by decide) (by decide) (by decide) (by decide)
      (by decide) (by decide) (by norm_num) (by decide) (by decide)
  · exact (getZone_matrix_hit_and_international _ _).2 (.str "10001")
      (.str "E3G7P6") (by decide)

theorem any_not_isDigit (l : List Char) :
    (l.any fun c => !c.isDigit) = !l.all Char.isDigit := by
  induction l with
  | nil => rfl
  | cons a t ih => simp [List.any_cons, List.all_cons, ih, Bool.not_and]

theorem any_not_isDigit_eq_not_pyIsdigit {n : String} (hn : n ≠ "") :
    (n.data.any fun c => !c.isDigit) = !pyIsdigit n := by
  have hne : n.data.isEmpty = false := by
    cases hd : n.data with
    | nil =>
      exfalso
      apply hn
      cases n with
      | mk l => cases hd; rfl
    | cons a t => rfl
  unfold pyIsdigit
  rw [hne, any_not_isDigit]
  simp

/-- **C5** (evaluation at the failing input): with ascending weight
breaks 1–5 lb and zone-2 rates 10–50, `get_base_rate` at a weight
exactly equal to the largest break (5) — and at a weight above it (6) —
returns 40, the second-to-last tier's rate, even though the last tier's
rate is 50; a weight equal to the non-final break 2 does return that
row's rate, and a weight below the smallest break returns the first
tier's. -/
theorem getBaseRate_top_band_divergence :
    getBaseRate exRateTable 5 2 (.str "box") = .ok 40
    ∧ getBaseRate exRateTable 6 2 (.str "box") = .ok 40
    ∧ getBaseRate exRateTable 2 2 (.str "box") = .ok 20
    ∧ getBaseRate exRateTable 0 2 (.str "box") = .ok 10
    ∧ exRateTable.rows.map (fun r => r.lbs) = [1, 2, 3, 4, 5]
    ∧ (exRateRow 5 50).rates.lookup "2" = some (some 50)
    ∧ (40 : Rat) ≠ 50 := by
  refine ⟨by rfl, by rfl, by rfl, by rfl, by rfl, by rfl, by norm_num⟩

/-- **C6**: `calculate_margin` returns
`savings = comparison − final` and
`savings_percent = savings / comparison · 100` when the comparison rate
is present and positive, and returns zeros whenever it is missing or
non-positive, regardless of the final rate. -/
theorem calculateMargin_spec (finalRate : Rat) (currentRate : Option Rat) :
    (∀ c, currentRate = some c → 0 < c →
      (calculateMargin finalRate currentRate).savings = c - finalRate ∧
      (calculateMargin finalRate currentRate).savingsPercent
        = (c - finalRate) / c * 100) ∧
    ((currentRate = Option.none ∨ ∃ c, currentRate = some c ∧ c ≤ 0) →
      (calculateMargin finalRate currentRate).savings = 0 ∧
      (calculateMargin finalRate currentRate).savingsPercent = 0) := by
  constructor
  · rintro c rfl hc
    unfold calculateMargin
    simp only []
    rw [if_pos hc]
    exact ⟨rfl, rfl⟩
  · rintro (rfl | ⟨c, rfl, hc⟩)
    · exact ⟨rfl, rfl⟩
    · unfold calculateMargin
      simp only []
      rw [if_neg (not_lt.mpr hc)]
      exact ⟨rfl, rfl⟩

/-- Witness for `calculateMargin_spec` at the rates (30, 50) and
(30, 0). -/
theorem calculateMargin_spec_witness :
    (calculateMargin 30 (some 50)).savings = 20
    ∧ (calculateMargin 30 (some 0)).savingsPercent = 0 := by
  constructor
  · rw [((calculateMargin_spec 30 (some 50)).1 50 rfl (by norm_num)).1]
    norm_num
  · exact ((calculateMargin_spec 30 (some 0)).2
      (Or.inr ⟨0, rfl, le_refl 0⟩)).2

/-- **C7**: the three surcharge classifiers agree everywhere with the
spec's case analysis — `is_das` True on empty/non-digit normalized
ZIPs, else DAS membership; `is_edas` False on empty/non-digit, else
membership; `is_remote` False on empty, True on non-digit, else
membership. -/
theorem classifiers_match_spec (dasZips edasZips remoteZips : List String)
    (z : PyVal) :
    isDasZip dasZips z = specIsDas dasZips z
    ∧ isEdasZip edasZips z = specIsEdas edasZips z
    ∧ isRemoteZip remoteZips z = specIsRemote remoteZips z := by
  unfold isDasZip specIsDas isEdasZip specIsEdas isRemoteZip specIsRemote
  by_cases hn : normalizeZip z = ""
  · simp [hn]
  · have key := any_not_isDigit_eq_not_pyIsdigit hn
    by_cases hd : pyIsdigit (normalizeZip z)
    · simp [hn, hd, key]
    · simp [hn, hd, key]

/-- **C8** is false on the code (evaluation at the failing input): for
a matrix whose only invalid cell is NaN, `invalid_count` is 0 (pandas
comparisons with NaN are False), so the `where`-replacement is skipped
and the NaN cell survives `.round().astype('Int64')` as the missing
value `<NA>` — not 8 and not an integer in `[1, 8]`.  When a numeric
out-of-range cell is present (second conjunct), the guard fires and
the NaN and the out-of-range cell both become 8 as the claim
describes. -/
theorem cleanZoneMatrix_nan_escape :
    cleanZoneMatrix [[Option.none]] = [[Option.none]]
    ∧ cleanZoneMatrix [[Option.none, some 45]] = [[some 8, some 8]]
    ∧ invalidCount [[Option.none]] = 0 := by
  have h8 : roundHalfEven (8 : Rat) = 8 := by
    rw [show ((8 : Rat)) = ((8 : Int) : Rat) by norm_num]
    exact roundHalfEven_intCast 8
  refine ⟨rfl, ?_, rfl⟩
  have hcount : invalidCount [[Option.none, some 45]] = 1 := by
    unfold invalidCount
    simp [cellInvalid, show ¬((45 : Rat) < 1) by norm_num,
      show (8 : Rat) < 45 by norm_num]
  unfold cleanZoneMatrix
  rw [if_pos (by rw [hcount]; omega)]
  simp [whereCell, roundCell, h8, show ¬((45 : Rat) ≤ 8) by norm_num]

theorem round2_zero : round2 (0 : Rat) = 0 := by
  unfold round2
  have h : (0 : Rat) * 100 = ((0 : Int) : Rat) := by norm_num
  rw [h, roundHalfEven_intCast]
  norm_num

/-- **C10**: on every return path of `apply_surcharges` the returned
dictionary satisfies
`total = round2(fuel + das + edas + remote)` (the early returns carry
`total = fuel` with zero components, and re-rounding a rounded value
changes nothing), and when the base rate and the configured fuel
percentage and surcharge amounts are non-negative, every component and
the total are non-negative. -/
theorem applySurcharges_invariant (cfg : Config) (baseRate : Rat)
    (destZip : PyVal) :
    ((applySurcharges cfg baseRate destZip).total
      = round2 ((applySurcharges cfg baseRate destZip).fuel
          + (applySurcharges cfg baseRate destZip).das
          + (applySurcharges cfg baseRate destZip).edas
          + (applySurcharges cfg baseRate destZip).remote))
    ∧ (0 ≤ baseRate →
       (∀ p, cfg.criteria.fuelPct = some p → 0 ≤ p) →
       0 ≤ cfg.criteria.dasAmt →
       0 ≤ cfg.criteria.edasAmt →
       0 ≤ cfg.criteria.remoteAmt →
       0 ≤ (applySurcharges cfg baseRate destZip).fuel
       ∧ 0 ≤ (applySurcharges cfg baseRate destZip).das
       ∧ 0 ≤ (applySurcharges cfg baseRate destZip).edas
       ∧ 0 ≤ (applySurcharges cfg baseRate destZip).remote
       ∧ 0 ≤ (applySurcharges cfg baseRate destZip).total) := by
  constructor
  · unfold applySurcharges
    cases cfg.criteria.fuelPct with
    | none =>
      simp only []
      rw [add_zero, add_zero, add_zero]
      exact round2_zero.symm
    | some p =>
      simp only []
      split
      · simp only []
        rw [add_zero, add_zero, add_zero]
        exact (round2_idem _).symm
      · split
        · simp only []
          rw [add_zero, add_zero, add_zero]
          exact (round2_idem _).symm
        · split
          · simp only []
            rw [add_zero, add_zero, add_zero]
            exact (round2_idem _).symm
          · rfl
  · intro hb hp hd he hr
    unfold applySurcharges
    cases hf : cfg.criteria.fuelPct with
    | none =>
      simp only []
      norm_num
    | some p =>
      have hp' := hp p hf
      have hfuel : 0 ≤ round2 (baseRate * (p / 100)) :=
        round2_nonneg (mul_nonneg hb (div_nonneg hp' (by norm_num)))
      simp only []
      split
      · exact ⟨hfuel, le_refl 0, le_refl 0, le_refl 0, hfuel⟩
      · split
        · exact ⟨hfuel, le_refl 0, le_refl 0, le_refl 0, hfuel⟩
        · split
          · exact ⟨hfuel, le_refl 0, le_refl 0, le_refl 0, hfuel⟩
          · refine ⟨hfuel, ?_, ?_, ?_, ?_⟩
            · simp only []
              split
              · exact hd
              · exact le_refl 0
            · simp only []
              split
              · split
                · exact he
                · exact le_refl 0
              · exact le_refl 0
            · simp only []
              split
              · exact hr
              · exact le_refl 0
            · simp only []
              apply round2_nonneg
              apply add_nonneg
              apply add_nonneg
              apply add_nonneg hfuel
              · split
                · exact hd
                · exact le_refl 0
              · split
                · split
                  · exact he
                  · exact le_refl 0
                · exact le_refl 0
              · split
                · exact hr
                · exact le_refl 0

/-- Witness for `applySurcharges_invariant` at the example
configuration, base rate 10 and destination `30301`. -/
theorem applySurcharges_invariant_witness :
    ((applySurcharges exConfig 10 (.str "30301")).total
      = round2 ((applySurcharges exConfig 10 (.str "30301")).fuel
          + (applySurcharges exConfig 10 (.str "30301")).das
          + (applySurcharges exConfig 10 (.str "30301")).edas
          + (applySurcharges exConfig 10 (.str "30301")).remote))
    ∧ 0 ≤ (applySurcharges exConfig 10 (.str "30301")).fuel
    ∧ 0 ≤ (applySurcharges exConfig 10 (.str "30301")).total := by
  have h := applySurcharges_invariant exConfig 10 (.str "30301")
  have h2 := h.2 (by norm_num)
    (by intro p hp; rw [show exConfig.criteria.fuelPct = some 16 from rfl]
          at hp; injection hp with hp'; rw [← hp']; norm_num)
    (by show (0 : Rat) ≤ 99 / 50; norm_num)
    (by show (0 : Rat) ≤ 98 / 25; norm_num)
    (by show (0 : Rat) ≤ 283 / 20; norm_num)
  exact ⟨h.1, h2.1, h2.2.2.2.2⟩

theorem append_msg_ne_empty (e : String) : "Base rate error: " ++ e ≠ "" := by
  intro h
  have hl := congrArg String.length h
  rw [String.length_append] at hl
  have h17 : ("Base rate error: " : String).length = 17 := rfl
  have h0 : ("" : String).length = 0 := rfl
  rw [h17, h0] at hl
  omega

theorem calcShipmentRate_zone (cfg : Config) (s : Shipment) :
    (calcShipmentRate cfg s).zone = ZoneField.int (shipZoneInt cfg s) := by
  unfold calcShipmentRate
  simp only []
  split
  · rfl
  · split
    · rfl
    · rfl

/-- **C1** (amended): `calculate_rates` returns exactly one result row
per input shipment and, being a total function of this embedding,
never aborts the batch; a shipment whose base-rate stage raises gets a
non-empty `errors` diagnostic in its row.  (As the counterexample
shows, such a row's `zone` keeps the already-resolved or provided zone
rather than the string `'Error'`; the `'Error'` marker survives only
when a failure precedes zone determination.) -/
theorem calculateRates_length_and_diagnostic (cfg : Config)
    (ss : List Shipment) :
    (calculateRates cfg ss).length = ss.length
    ∧ ∀ (s : Shipment) (e : String),
        getBaseRate cfg.rt (ratingWeight s) (shipZoneInt cfg s)
          (s.packageType.getD (.str "box")) = .error e →
        (calcShipmentRate cfg s).errors ≠ .str "" := by
  constructor
  · unfold calculateRates
    exact List.length_map ss (calcShipmentRate cfg)
  · intro s e he
    unfold calcShipmentRate
    simp only []
    rw [he]
    simp only []
    unfold sanitizeRow
    simp only [sanitizePy]
    split
    · intro hcon
      cases hcon
    · intro hcon
      injection hcon with ht
      exact append_msg_ne_empty e ht

/-- Witness for `calculateRates_length_and_diagnostic`: a 2-shipment
batch yields 2 rows, and the shipment with provided zone 99 (whose
base-rate stage fails) has a non-empty diagnostic. -/
theorem calculateRates_length_and_diagnostic_witness :
    (calculateRates exConfig [exShipOk, exShipBadZone]).length = 2
    ∧ (calcShipmentRate exConfig exShipBadZone).errors ≠ .str "" := by
  constructor
  · exact (calculateRates_length_and_diagnostic exConfig
      [exShipOk, exShipBadZone]).1
  · exact (calculateRates_length_and_diagnostic exConfig []).2 exShipBadZone
      "Zone 99 not found in rate table" (by rfl)

/-- **C1** as stated is false at this input: the failed shipment's row
carries a non-empty diagnostic, yet its zone is the integer 99 it
supplied, not the string `'Error'`. -/
theorem calculateRates_zone_error_counterexample :
    (calculateRates exConfig [exShipBadZone]).length = 1
    ∧ (calcShipmentRate exConfig exShipBadZone).errors
        = .str "Base rate error: Zone 99 not found in rate table"
    ∧ (calcShipmentRate exConfig exShipBadZone).zone = ZoneField.int 99
    ∧ ZoneField.int 99 ≠ ZoneField.err := by
  refine ⟨rfl, by decide, by decide, by decide⟩

/-- **C9** (amended): a zone provided in the shipment record — any
integer, 0 included — is used as-is, and the resolver's value is used
exactly when no zone is provided (for an alphabetic destination the
inline 8 coincides with the resolver's own international fallback). -/
theorem providedZone_used_as_is (cfg : Config) (s : Shipment) :
    (∀ z : Int, s.zone = some z →
      (calcShipmentRate cfg s).zone = ZoneField.int z)
    ∧ (s.zone = Option.none →
      (calcShipmentRate cfg s).zone = ZoneField.int
        (getZone cfg.zm cfg.criteria.originZip (effOrigin cfg s)
          (effDest s))) := by
  constructor
  · intro z hz
    rw [calcShipmentRate_zone]
    unfold shipZoneInt
    rw [hz]
  · intro hz
    rw [calcShipmentRate_zone]
    unfold shipZoneInt
    rw [hz]
    simp only []
    split
    · next halpha =>
      obtain ⟨a, ha, hal⟩ := List.any_eq_true.mp halpha
      have hmem := mem_pstrip ha (isAlpha_not_space hal)
      have hg : getZone cfg.zm cfg.criteria.originZip (effOrigin cfg s)
          (effDest s) = 8 := by
        unfold getZone
        simp only []
        rw [if_pos (List.any_eq_true.mpr ⟨a, hmem, hal⟩)]
      rw [hg]
    · rfl

/-- Witness for `providedZone_used_as_is`: the zone-0 shipment keeps
zone 0, and the shipment without a zone gets the resolver's value. -/
theorem providedZone_used_as_is_witness :
    (calcShipmentRate exConfig exShipZoneZero).zone = ZoneField.int 0
    ∧ (calcShipmentRate exConfig exShipOk).zone = ZoneField.int
        (getZone exConfig.zm exConfig.criteria.originZip
          (effOrigin exConfig exShipOk) (effDest exShipOk)) := by
  exact ⟨(providedZone_used_as_is exConfig exShipZoneZero).1 0 rfl,
         (providedZone_used_as_is exConfig exShipOk).2 rfl⟩

/-- **C9** as stated is false at this input: with a provided zone of 0
the resolver does not run — the row reports zone 0 even though the
resolver would return 4 for the same shipment. -/
theorem providedZoneZero_counterexample :
    (calcShipmentRate exConfig exShipZoneZero).zone = ZoneField.int 0
    ∧ getZone exConfig.zm exConfig.criteria.originZip
        (effOrigin exConfig exShipZoneZero) (effDest exShipZoneZero) = 4
    ∧ ZoneField.int 0 ≠ ZoneField.int 4 := by
  refine ⟨by decide, by decide, by decide⟩

/-- **C2** is false on the code: `get_summary_stats` filters with
`'error' not in r`, a dictionary-**key** test, and no result row
carries a key named `'error'` (the diagnostic key is `'errors'`), so a
3-shipment batch whose second row failed still reports
`total_shipments = 3` where the claim requires 2. -/
theorem getSummaryStats_counts_error_rows :
    (calcShipmentRate exConfig exShipBadZone).errors ≠ .str ""
    ∧ resultRowKeys.contains "error" = false
    ∧ (getSummaryStats (calculateRates exConfig
        [exShipOk, exShipBadZone, exShipPlaceholder])).totalShipments = 3 := by
  refine ⟨by decide, by decide, by decide⟩

end LablIQ
